import Mathlib

/-!
Verification of the decision and scheduling logic of the ha_pyscripts
home-energy automation scripts (HotWaterOptimizer.py, TeslaSmartCharging.py,
UpdateSpotPriceSensors.py), as a shallow embedding in Lean 4.

Conventions of the embedding:
* timestamps are minutes (an `Int`); a day is 1440 minutes, so the hour of
  day of a timestamp `m` is `(m % 1440) / 60` and the start of its hour is
  `m - m % 60`;
* prices, energies and temperatures are rationals (`ℚ`), standing in for
  the Python floats;
* Python's stable `sort`/`sorted` is modelled by `List.insertionSort`,
  which is stable;
* values read from the Home Assistant state store that may be unavailable
  are `Option`s; each handler is modelled as a pure function of an input
  record collecting everything the Python code reads from sensors.
-/

/-! ### Price normalization (`_normalize_price_data`)

A raw nordpool price tick.  The Python code receives dictionaries that may
miss any of the `start` / `end` / `value` keys, hence the `Option` fields.
`stop` models the `end` key. -/

structure RawTick where
  start : Option Int
  stop : Option Int
  value : Option ℚ
deriving DecidableEq, Repr

/-- One iteration of the normalization loop of
`TeslaSmartCharging._normalize_price_data` and
`UpdateSpotPriceSensors._normalize_price_data`: a malformed entry is kept
as-is; an entry longer than 45 minutes is split into four 15-minute
entries carrying the same value; any other entry passes through. -/
def normalizePriceEntryKeep (entry : RawTick) : List RawTick :=
  match entry.start, entry.stop, entry.value with
  | some s, some e, some v =>
    if 45 < e - s then
      (List.range 4).map (fun i =>
        { start := some (s + 15 * (i : Int)),
          stop := some (s + 15 * ((i : Int) + 1)),
          value := some v })
    else [entry]
  | _, _, _ => [entry]

/-- One iteration of the normalization loop of
`HotWaterOptimizer._normalize_price_data`, whose only difference is that a
malformed entry is dropped (`continue`) instead of kept. -/
def normalizePriceEntryDropping (entry : RawTick) : List RawTick :=
  match entry.start, entry.stop, entry.value with
  | some s, some e, some v =>
    if 45 < e - s then
      (List.range 4).map (fun i =>
        { start := some (s + 15 * (i : Int)),
          stop := some (s + 15 * ((i : Int) + 1)),
          value := some v })
    else [entry]
  | _, _, _ => []

/-- `_normalize_price_data` (keep-malformed variant): the loop appends the
per-entry results in order. -/
def normalizePriceDataKeep (l : List RawTick) : List RawTick :=
  l.flatMap normalizePriceEntryKeep

/-- `_normalize_price_data` (drop-malformed variant of HotWaterOptimizer). -/
def normalizePriceDataDropping (l : List RawTick) : List RawTick :=
  l.flatMap normalizePriceEntryDropping

/-! ### Cost zone classification and smoothing (UpdateSpotPriceSensors.py) -/

/-- `LOOKAHEAD_MAJORITY_THRESHOLD = 0.75`. -/
def LOOKAHEAD_MAJORITY_THRESHOLD : ℚ := 3 / 4

/-- `MIN_LOOKAHEAD_INTERVALS = 2`. -/
def MIN_LOOKAHEAD_INTERVALS : Nat := 2

/-- `_calculate_cost_for_price`: classify a price into an ordinal zone 0-3
given the three thresholds. -/
def calculateCostForPrice (price thresholdCheap thresholdAvg thresholdExpensive : ℚ) : Int :=
  if price < thresholdCheap then 0
  else if price < thresholdAvg then 1
  else if price < thresholdExpensive then 2
  else 3

/-- `_calculate_smoothed_cost`: only change zone if the threshold crossing
is sustained over the lookahead.  Returns
`(smoothed_zone, raw_zone, agreement_ratio)`. -/
def calculateSmoothedCost (priceCurrent : ℚ) (currentZone : Int)
    (thresholdCheap thresholdAvg thresholdExpensive : ℚ)
    (futurePrices : List ℚ) : Int × Int × ℚ :=
  let rawZone := calculateCostForPrice priceCurrent thresholdCheap thresholdAvg thresholdExpensive
  if rawZone = currentZone then (currentZone, rawZone, 1)
  else if futurePrices.length < MIN_LOOKAHEAD_INTERVALS then (rawZone, rawZone, 1)
  else
    let futureZones := futurePrices.map
      (fun p => calculateCostForPrice p thresholdCheap thresholdAvg thresholdExpensive)
    let matchingCount := futureZones.countP (fun z => z = rawZone)
    let agreement : ℚ := (matchingCount : ℚ) / (futureZones.length : ℚ)
    if LOOKAHEAD_MAJORITY_THRESHOLD ≤ agreement then (rawZone, rawZone, agreement)
    else (currentZone, rawZone, agreement)

/-- Python's `min(list)` over a nonempty list (0 on the empty list, which
the callers never pass). -/
def pyListMin : List ℚ → ℚ
  | [] => 0
  | x :: xs => xs.foldl min x

/-- Python's `max(list)` over a nonempty list. -/
def pyListMax : List ℚ → ℚ
  | [] => 0
  | x :: xs => xs.foldl max x

/-- `sum(prices) / len(prices)` as computed in `updateSpotPriceSensors`. -/
def pyAvg (l : List ℚ) : ℚ := l.sum / (l.length : ℚ)

/-! ### Hour pool and cheapest-hours selection (HotWaterOptimizer.py) -/

/-- One hour of the price pool built by `_build_hourly_price_pool`. -/
structure HourSlot where
  hourStart : Int
  hourEnd : Int
  price : ℚ
deriving DecidableEq, Repr

/-- Price ordering used by `sorted(pool, key=lambda x: x['price'])`. -/
def lePrice (a b : HourSlot) : Prop := a.price ≤ b.price

/-- Chronological ordering used by `cheapest.sort(key=lambda x: x['hour_start'])`. -/
def leStart (a b : HourSlot) : Prop := a.hourStart ≤ b.hourStart

instance : DecidableRel lePrice :=
  fun a b => inferInstanceAs (Decidable (a.price ≤ b.price))

instance : DecidableRel leStart :=
  fun a b => inferInstanceAs (Decidable (a.hourStart ≤ b.hourStart))

instance : IsTotal HourSlot lePrice := ⟨fun a b => le_total a.price b.price⟩

instance : IsTrans HourSlot lePrice := ⟨fun _ _ _ h1 h2 => le_trans h1 h2⟩

instance : IsTotal HourSlot leStart := ⟨fun a b => le_total a.hourStart b.hourStart⟩

instance : IsTrans HourSlot leStart := ⟨fun _ _ _ h1 h2 => le_trans h1 h2⟩

/-- `_select_cheapest_hours`: stable-sort the pool by price, take the first
`count` slots, then re-sort the selection chronologically. -/
def selectCheapestHours (pool : List HourSlot) (count : Nat) : List HourSlot :=
  if pool.isEmpty then []
  else List.insertionSort leStart ((List.insertionSort lePrice pool).take count)

/-! ### Hot-water decision engine (HotWaterOptimizer.py) -/

/-- Truncation toward zero, as Python's `int(...)` applied to a float. -/
def ratTrunc (q : ℚ) : Int := if 0 ≤ q then ⌊q⌋ else ⌈q⌉

/-- A 15-minute interval considered by `_evaluate_morning_guarantee`. -/
structure QuarterInterval where
  start : Int
  stop : Int
  price : ℚ
deriving DecidableEq, Repr

/-- The overnight 15-minute intervals built by `_evaluate_morning_guarantee`
from the pool hours not claimed by the cheapest-3 schedule and ending by
the 06:00 deadline, keeping only intervals that start at or after `now`. -/
def overnightIntervals (pool cheapSlots : List HourSlot)
    (nowMin morningTarget : Int) : List QuarterInterval :=
  pool.flatMap (fun hourSlot =>
    if hourSlot.hourStart ∈ cheapSlots.map HourSlot.hourStart then []
    else if morningTarget < hourSlot.hourEnd then []
    else ((List.range 4).map (fun i =>
      ({ start := hourSlot.hourStart + 15 * (i : Int),
         stop := hourSlot.hourStart + 15 * ((i : Int) + 1),
         price := hourSlot.price } : QuarterInterval))).filter
        (fun iv => nowMin ≤ iv.start))

/-- The inner consecutiveness check: every interval starts where the
previous one ends. -/
def consecutiveChain : QuarterInterval → List QuarterInterval → Bool
  | _, [] => true
  | prev, x :: xs => (prev.stop == x.start) && consecutiveChain x xs

/-- `is_consecutive` verification for a candidate block. -/
def isConsecutiveBlock : List QuarterInterval → Bool
  | [] => true
  | x :: xs => consecutiveChain x xs

/-- The candidate blocks `overnight_intervals[i:i + needed]` for
`i in range(len - needed + 1)`, in order. -/
def windowsOfLength (l : List QuarterInterval) (k : Nat) : List (List QuarterInterval) :=
  (List.range (l.length + 1 - k)).map (fun i => (l.drop i).take k)

/-- The fold over candidate blocks keeping the first strictly-cheapest
consecutive block (`best_cost` starts at infinity, so the first consecutive
block always becomes the initial best). -/
def bestBlockGo : List (List QuarterInterval) → Option (List QuarterInterval × ℚ) →
    Option (List QuarterInterval × ℚ)
  | [], best => best
  | b :: rest, best =>
    if isConsecutiveBlock b then
      let cost := (b.map QuarterInterval.price).sum
      match best with
      | none => bestBlockGo rest (some (b, cost))
      | some (bb, bc) =>
        if cost < bc then bestBlockGo rest (some (b, cost))
        else bestBlockGo rest (some (bb, bc))
    else bestBlockGo rest best

/-- The cheapest consecutive block of length `k`, if any. -/
def bestBlock (l : List QuarterInterval) (k : Nat) : Option (List QuarterInterval) :=
  match bestBlockGo (windowsOfLength l k) none with
  | none => none
  | some (b, _) => some b

/-- `_evaluate_morning_guarantee bt7 cheap_slots pool` (the returned
slot-info string is informational only and is not modelled): decide whether
morning-guarantee heating is needed and active at `nowMin`. -/
def evaluateMorningGuarantee (bt7 : ℚ) (cheapSlots pool : List HourSlot)
    (nowMin : Int) : Bool :=
  let currentHour := (nowMin % 1440) / 60
  if 6 ≤ currentHour ∧ currentHour < 18 then false
  else
    let hoursUntilMorning := if 18 ≤ currentHour then (24 - currentHour) + 6 else 6 - currentHour
    let projectedBt7 := bt7 - (3 / 2) * (hoursUntilMorning : ℚ)
    if 50 ≤ projectedBt7 then false
    else
      let deficit := 50 - projectedBt7
      let neededIntervals := min (ratTrunc (deficit / (5 / 4)) + 1) 8
      let morningTarget := (nowMin - nowMin % 1440) + 6 * 60 +
        (if 18 ≤ currentHour then 1440 else 0)
      let intervals := overnightIntervals pool cheapSlots nowMin morningTarget
      if (intervals.length : Int) < neededIntervals then false
      else
        match bestBlock intervals neededIntervals.toNat with
        | none => false
        | some block =>
          match block.head?, block.getLast? with
          | some first, some last => decide (first.start ≤ nowMin ∧ nowMin < last.stop)
          | _, _ => false

/-- `_check_temperature_safety bt7 cost_zone current_status`: `none` means
"not applicable / defer" (Python's `(None, None)`), otherwise the
allow/block outcome with its reason. -/
def checkTemperatureSafety (bt7 : ℚ) (costZone : Int) (currentStatus : ℚ) :
    Option (Bool × String) :=
  if 2 < costZone then none
  else if bt7 < 40 then some (true, "temp_safety_below_40")
  else if 45 < bt7 then some (false, "temp_safety_above_45")
  else if (1 : ℚ) / 2 < currentStatus then some (true, "temp_safety_hysteresis_heating")
  else none

/-- Everything `_make_heating_decision` and `updateHotWaterHeatingStatus`
read from the state store, gathered into one input record.  The pool stands
for the result of `_build_hourly_price_pool` (which only reads the nordpool
sensor), `prevStatus` / `prevReason` / `prevSlots` for the persisted
previous decision and its stored `schedule_slots` attribute. -/
structure HWInput where
  bt7 : Option ℚ
  costZone : Option Int
  currentStatus : Option ℚ
  manualOverride : Bool
  inverterPower : Option ℚ
  teslaContactorClosed : Bool
  pool : List HourSlot
  nowMin : Int
  prevStatus : ℚ
  prevReason : String
  prevSlots : List HourSlot
deriving DecidableEq, Repr

/-- The decision written back to the state store: the status value, the
reason attribute and the `schedule_slots` debug attribute. -/
structure HWDecision where
  status : Int
  reason : String
  scheduleSlots : List HourSlot
deriving DecidableEq, Repr

/-- `_check_solar_override`: inverter above 3000 W and the wall connector
contactor not closed; an unreadable inverter sensor yields `False`. -/
def checkSolarOverride (inp : HWInput) : Bool :=
  match inp.inverterPower with
  | none => false
  | some p => decide (3000 < p) && !inp.teslaContactorClosed

/-- `_make_heating_decision`: evaluate the decision layers in priority
order, first match wins. -/
def makeHeatingDecision (inp : HWInput) : HWDecision :=
  match inp.bt7 with
  | none => { status := 0, reason := "bt7_unavailable", scheduleSlots := [] }
  | some bt7 =>
    let costZone := inp.costZone.getD 3
    let currentStatus := inp.currentStatus.getD 0
    if inp.manualOverride then
      { status := 1, reason := "manual_override", scheduleSlots := [] }
    else if checkSolarOverride inp then
      { status := 1, reason := "solar_override", scheduleSlots := [] }
    else
      let cheapSlots := selectCheapestHours inp.pool 3
      let currentHourStart := inp.nowMin - inp.nowMin % 60
      if cheapSlots.any (fun s =>
          decide (s.hourStart ≤ currentHourStart) && decide (currentHourStart < s.hourEnd)) then
        { status := 1, reason := "cheapest_3h", scheduleSlots := cheapSlots }
      else if evaluateMorningGuarantee bt7 cheapSlots inp.pool inp.nowMin then
        { status := 1, reason := "morning_guarantee", scheduleSlots := cheapSlots }
      else
        match checkTemperatureSafety bt7 costZone currentStatus with
        | some (true, reason) => { status := 1, reason := reason, scheduleSlots := cheapSlots }
        | _ => { status := 0, reason := "default_block", scheduleSlots := cheapSlots }

/-- The stability-rule condition of `updateHotWaterHeatingStatus` apart
from the freshly computed status: previous decision allowed with a
cheapest-3h reason, and the current hour start falls inside a previously
stored slot. -/
def stabilityOverride (inp : HWInput) : Bool :=
  decide ((1 : ℚ) / 2 < inp.prevStatus) &&
  (inp.prevReason == "cheapest_3h" || inp.prevReason == "cheapest_3h_stability") &&
  inp.prevSlots.any (fun s =>
    decide (s.hourStart ≤ inp.nowMin - inp.nowMin % 60) &&
    decide (inp.nowMin - inp.nowMin % 60 < s.hourEnd))

/-- `updateHotWaterHeatingStatus`: compute the fresh decision, then apply
the stability rule (do not drop `cheapest_3h` mid-hour on recalculation),
re-persisting the previous schedule when the override fires. -/
def updateHotWaterHeatingStatus (inp : HWInput) : HWDecision :=
  let d := makeHeatingDecision inp
  if stabilityOverride inp && (d.status == 0) then
    { status := 1, reason := "cheapest_3h_stability", scheduleSlots := inp.prevSlots }
  else d

/-! ### EV charging scheduler (TeslaSmartCharging.py) -/

/-- `BATTERY_CAPACITY_KWH = 75`. -/
def BATTERY_CAPACITY_KWH : ℚ := 75

/-- `CHARGING_EFFICIENCY = 0.90`. -/
def CHARGING_EFFICIENCY : ℚ := 9 / 10

/-- `MIN_SOC_GUARANTEE = 50`. -/
def MIN_SOC_GUARANTEE : ℚ := 50

/-- `MIN_CHARGE_AMPS = 6`. -/
def MIN_CHARGE_AMPS : Int := 6

/-- `MAX_CHARGE_AMPS = 13`. -/
def MAX_CHARGE_AMPS : Int := 13

/-- `VOLTAGE = 230`. -/
def VOLTAGE : ℚ := 230

/-- `PHASES = 3`. -/
def PHASES : ℚ := 3

/-- `MIN_CHARGE_POWER_W = MIN_CHARGE_AMPS * VOLTAGE * PHASES`. -/
def MIN_CHARGE_POWER_W : ℚ := (MIN_CHARGE_AMPS : ℚ) * VOLTAGE * PHASES

/-- `SOLAR_START_THRESHOLD_W = 4500`. -/
def SOLAR_START_THRESHOLD_W : ℚ := 4500

/-- `SOLAR_BLENDED_MIN_W = 1500`. -/
def SOLAR_BLENDED_MIN_W : ℚ := 1500

/-- `BLENDED_PRICE_THRESHOLD_FACTOR = 0.75`. -/
def BLENDED_PRICE_THRESHOLD_FACTOR : ℚ := 3 / 4

/-- A candidate charging slot as built by
`_build_slot_list_with_effective_prices`. -/
structure ChargeSlot where
  start : Int
  stop : Int
  buyPrice : ℚ
  sellPrice : ℚ
  effectivePrice : ℚ
  solarEnergy : ℚ
  gridEnergy : ℚ
  energy : ℚ
deriving DecidableEq, Repr

/-- Effective-price ordering used by `sort(key=lambda s: s['effective_price'])`. -/
def leEff (a b : ChargeSlot) : Prop := a.effectivePrice ≤ b.effectivePrice

/-- Chronological ordering used by `slots_json.sort(key=lambda s: s['start'])`. -/
def leSlotStart (a b : ChargeSlot) : Prop := a.start ≤ b.start

instance : DecidableRel leEff :=
  fun a b => inferInstanceAs (Decidable (a.effectivePrice ≤ b.effectivePrice))

instance : DecidableRel leSlotStart :=
  fun a b => inferInstanceAs (Decidable (a.start ≤ b.start))

instance : IsTotal ChargeSlot leEff := ⟨fun a b => le_total a.effectivePrice b.effectivePrice⟩

instance : IsTrans ChargeSlot leEff := ⟨fun _ _ _ h1 h2 => le_trans h1 h2⟩

instance : IsTotal ChargeSlot leSlotStart := ⟨fun a b => le_total a.start b.start⟩

instance : IsTrans ChargeSlot leSlotStart := ⟨fun _ _ _ h1 h2 => le_trans h1 h2⟩

/-- Total energy of a list of slots, `sum([s['energy'] for s in slots])`. -/
def energySum (slots : List ChargeSlot) : ℚ := (slots.map ChargeSlot.energy).sum

/-- `_calculate_kwh_needed current_soc target_soc`: wall-side energy needed
to charge from `currentSoc` to `targetSoc` accounting for charging
efficiency. -/
def calculateKwhNeeded (currentSoc targetSoc : ℚ) : ℚ :=
  if targetSoc ≤ currentSoc then 0
  else (targetSoc - currentSoc) / 100 * BATTERY_CAPACITY_KWH / CHARGING_EFFICIENCY

/-- The accumulation loop of `_select_slots_for_energy`: stop as soon as
the accumulated energy covers the need, otherwise take the next slot. -/
def selectSlotsGo (energyNeeded : ℚ) : List ChargeSlot → ℚ → List ChargeSlot
  | [], _ => []
  | slot :: rest, accumulated =>
    if energyNeeded ≤ accumulated then []
    else slot :: selectSlotsGo energyNeeded rest (accumulated + slot.energy)

/-- `_select_slots_for_energy slots energy_needed`: greedy prefix of a
price-sorted slot list covering at least `energyNeeded` kWh (or all slots
if they do not suffice); empty when no energy is needed. -/
def selectSlotsForEnergy (slots : List ChargeSlot) (energyNeeded : ℚ) : List ChargeSlot :=
  if energyNeeded ≤ 0 then [] else selectSlotsGo energyNeeded slots 0

/-- `_store_schedule schedule_slots mode`: the persisted schedule, with the
slots sorted chronologically for storage. -/
def storeSchedule (scheduleSlots : List ChargeSlot) (mode : String) :
    List ChargeSlot × String :=
  (List.insertionSort leSlotStart scheduleSlots, mode)

/-- Everything `_calculate_and_store_schedule` reads: the SOC and charge
limit (each possibly unavailable), the candidate slot list built by
`_build_slot_list_with_effective_prices`, and the deadline from
`_get_next_deadline`. -/
structure SchedInput where
  soc : Option ℚ
  chargeLimit : Option ℚ
  allSlots : List ChargeSlot
  deadline : Int
deriving DecidableEq, Repr

/-- The observable outcome of one `_calculate_and_store_schedule` run: the
returned success flag, the last status code written through
`_update_charging_status`, the schedule written through `_store_schedule`
(`none` when no schedule was written, leaving the store unchanged), and
the mandatory/optional slot lists of the returned result. -/
structure SchedResult where
  success : Bool
  statusCode : Int
  stored : Option (List ChargeSlot × String)
  mandatory : List ChargeSlot
  optional : List ChargeSlot
deriving DecidableEq, Repr

/-- The failure outcome shared by all error paths of
`_calculate_and_store_schedule` (status -1, nothing stored). -/
def schedFail : SchedResult :=
  { success := false, statusCode := -1, stored := none, mandatory := [], optional := [] }

/-- Pass 2 and the combine/store step of `_calculate_and_store_schedule`,
given the mandatory slots selected by pass 1. -/
def schedAfterPass1 (soc chargeLimit : ℚ) (allSlots mandatorySlots : List ChargeSlot) :
    SchedResult :=
  let socAfterMandatory :=
    if mandatorySlots.isEmpty then soc
    else min (soc + energySum mandatorySlots * CHARGING_EFFICIENCY / BATTERY_CAPACITY_KWH * 100)
      chargeLimit
  let optionalNeeded := calculateKwhNeeded socAfterMandatory chargeLimit
  let optionalSlots :=
    if 0 < optionalNeeded then
      let mandatoryStarts := mandatorySlots.map ChargeSlot.start
      selectSlotsForEnergy
        (List.insertionSort leEff (allSlots.filter (fun s => decide (s.start ∉ mandatoryStarts))))
        optionalNeeded
    else []
  if (mandatorySlots ++ optionalSlots).isEmpty then
    { success := true, statusCode := 0, stored := some (storeSchedule [] "idle"),
      mandatory := [], optional := [] }
  else
    let mode :=
      if !mandatorySlots.isEmpty && !optionalSlots.isEmpty then "scheduled_mandatory_optional"
      else if !mandatorySlots.isEmpty then "scheduled_mandatory"
      else "scheduled_optional"
    { success := true, statusCode := 1,
      stored := some (storeSchedule (mandatorySlots ++ optionalSlots) mode),
      mandatory := mandatorySlots, optional := optionalSlots }

/-- `_calculate_and_store_schedule` once SOC and charge limit are known:
the already-complete check, the no-price-data check, pass 1 (mandatory
charging before the deadline), then pass 2 and storing. -/
def schedWithKnown (soc chargeLimit : ℚ) (allSlots : List ChargeSlot) (deadline : Int) :
    SchedResult :=
  if chargeLimit ≤ soc then
    { success := true, statusCode := 5, stored := some (storeSchedule [] "complete"),
      mandatory := [], optional := [] }
  else if allSlots.isEmpty then schedFail
  else if soc < MIN_SOC_GUARANTEE then
    let mandatoryEnergyNeeded := calculateKwhNeeded soc MIN_SOC_GUARANTEE
    let slotsBeforeDeadline := allSlots.filter (fun s => decide (s.start < deadline))
    if slotsBeforeDeadline.isEmpty then schedFail
    else
      schedAfterPass1 soc chargeLimit allSlots
        (selectSlotsForEnergy (List.insertionSort leEff slotsBeforeDeadline)
          mandatoryEnergyNeeded)
  else schedAfterPass1 soc chargeLimit allSlots []

/-- `_calculate_and_store_schedule`: abort with status -1 when the SOC or
the charge limit is unavailable, otherwise run the two-pass selection. -/
def calculateAndStoreSchedule (inp : SchedInput) : SchedResult :=
  match inp.soc with
  | none => schedFail
  | some soc =>
    match inp.chargeLimit with
    | none => schedFail
    | some chargeLimit => schedWithKnown soc chargeLimit inp.allSlots inp.deadline

/-! ### Solar opportunistic charging (TeslaSmartCharging.py) -/

/-- A device command issued by the solar-opportunism handler through the
charging-control helpers. -/
inductive ChargeCmd where
  | startCharge (amps : Int)
  | stopCharge
  | setAmps (amps : Int)
deriving DecidableEq, Repr

/-- `_calculate_target_amps_from_power excess_watts`: integer truncation of
`excess_watts / (VOLTAGE * PHASES)` clamped into
`[MIN_CHARGE_AMPS, MAX_CHARGE_AMPS]`. -/
def calculateTargetAmpsFromPower (excessWatts : ℚ) : Int :=
  let powerPerAmp := VOLTAGE * PHASES
  let targetAmps := ratTrunc (excessWatts / powerPerAmp)
  max MIN_CHARGE_AMPS (min MAX_CHARGE_AMPS targetAmps)

/-- `_calculate_blended_effective_price excess_solar_w buy_price sell_price`
with the same edge-case handling as the Python code. -/
def calculateBlendedEffectivePrice (excessSolarW buyPrice sellPrice : Option ℚ) : ℚ :=
  let excess := match excessSolarW with
    | none => 0
    | some e => if e < 0 then 0 else e
  match buyPrice with
  | none => 1
  | some buy =>
    if buy < 0 then 1
    else
      let sell := match sellPrice with
        | none => 0
        | some s => if s < 0 then 0 else s
      if MIN_CHARGE_POWER_W ≤ excess then sell
      else
        let solarFraction := excess / MIN_CHARGE_POWER_W
        let gridFraction := 1 - solarFraction
        solarFraction * sell + gridFraction * buy

/-- `_is_price_cheap price` given the day's raw nordpool prices: cheap
means below 75 % of the daily average; `False` on missing data. -/
def isPriceCheap (price : Option ℚ) (rawTodayPrices : List ℚ) : Bool :=
  match price with
  | none => false
  | some p =>
    if rawTodayPrices.isEmpty then false
    else
      let dailyAverage := rawTodayPrices.sum / (rawTodayPrices.length : ℚ)
      decide (p < dailyAverage * BLENDED_PRICE_THRESHOLD_FACTOR)

/-- Everything `handle_solar_opportunity` reads on one invocation: the
guard states, the grid-power reading (`none` models an unparsable value),
the charging state, the persisted `charging_started_by` attribute, SOC and
charge limit, the current buy/sell prices from `_get_current_prices`
(`none` models an unavailable buy price), the day's raw prices used by
`_is_price_cheap`, and the current amperage setting. -/
structure SolarInput where
  smartChargingEnabled : Bool
  isDaylight : Bool
  carAtHome : Bool
  cableConnected : Bool
  debounceElapsed : Bool
  inScheduledSlot : Bool
  changeAllowed : Bool
  gridPower : Option ℚ
  isCharging : Bool
  chargingStartedBy : Option String
  soc : Option ℚ
  chargeLimit : Option ℚ
  currentPrices : Option (ℚ × ℚ)
  rawTodayPrices : List ℚ
  currentAmps : Int
deriving DecidableEq, Repr

/-- `_is_in_opportunistic_solar_mode`: the persisted `charging_started_by`
attribute equals `"solar_opportunistic"`. -/
def isInOpportunisticSolarMode (inp : SolarInput) : Bool :=
  inp.chargingStartedBy == some "solar_opportunistic"

/-- `_stop_solar_opportunistic_charging`: only issues the stop command when
the session is in opportunistic solar mode. -/
def stopSolarOpportunisticCharging (inp : SolarInput) : List ChargeCmd :=
  if isInOpportunisticSolarMode inp then [ChargeCmd.stopCharge] else []

/-- The target-SOC check of `handle_solar_opportunity`: when the SOC has
reached the charge limit, stop an active opportunistic session and do
nothing else. -/
def solarSocLimitCmds (inp : SolarInput) : List ChargeCmd :=
  if inp.isCharging && isInOpportunisticSolarMode inp then stopSolarOpportunisticCharging inp
  else []

/-- Tier 1 (pure solar) of `handle_solar_opportunity`: start at the
calculated amperage, or adjust it when already in solar mode and the
difference is at least 1 A. -/
def solarPureTierCmds (inp : SolarInput) (surplusWatts : ℚ) : List ChargeCmd :=
  let targetAmps := calculateTargetAmpsFromPower surplusWatts
  if !inp.isCharging then [ChargeCmd.startCharge targetAmps]
  else if isInOpportunisticSolarMode inp then
    if 1 ≤ (targetAmps - inp.currentAmps).natAbs then [ChargeCmd.setAmps targetAmps]
    else []
  else []

/-- Tier 2 (blended solar + grid) of `handle_solar_opportunity`: charge at
minimum amperage when the blended price is cheap, otherwise stop an active
opportunistic session; with no price data, stop an active opportunistic
session. -/
def solarBlendedTierCmds (inp : SolarInput) (surplusWatts : ℚ) : List ChargeCmd :=
  match inp.currentPrices with
  | some (buyPrice, sellPrice) =>
    let effectivePrice :=
      calculateBlendedEffectivePrice (some surplusWatts) (some buyPrice) (some sellPrice)
    if isPriceCheap (some effectivePrice) inp.rawTodayPrices then
      if !inp.isCharging then [ChargeCmd.startCharge MIN_CHARGE_AMPS]
      else if isInOpportunisticSolarMode inp && decide (MIN_CHARGE_AMPS < inp.currentAmps) then
        [ChargeCmd.setAmps MIN_CHARGE_AMPS]
      else []
    else if inp.isCharging && isInOpportunisticSolarMode inp then
      stopSolarOpportunisticCharging inp
    else []
  | none =>
    if inp.isCharging && isInOpportunisticSolarMode inp then stopSolarOpportunisticCharging inp
    else []

/-- Tier 3 (below the blended floor) of `handle_solar_opportunity`: stop
an active opportunistic session. -/
def solarStopTierCmds (inp : SolarInput) : List ChargeCmd :=
  if inp.isCharging && isInOpportunisticSolarMode inp then stopSolarOpportunisticCharging inp
  else []

/-- `handle_solar_opportunity`: the guard chain, the target-SOC check and
the three-tier decision logic, returning the device commands issued. -/
def handleSolarOpportunity (inp : SolarInput) : List ChargeCmd :=
  if !inp.smartChargingEnabled then []
  else if !inp.isDaylight then []
  else if !inp.carAtHome || !inp.cableConnected then []
  else if !inp.debounceElapsed then []
  else if inp.inScheduledSlot then []
  else if !inp.changeAllowed then []
  else
    match inp.gridPower with
    | none => []
    | some gridPower =>
      let surplusWatts := -gridPower
      let socAtLimit : Bool :=
        match inp.soc, inp.chargeLimit with
        | some soc, some chargeLimit => decide (chargeLimit ≤ soc)
        | _, _ => false
      if socAtLimit then solarSocLimitCmds inp
      else if SOLAR_START_THRESHOLD_W ≤ surplusWatts then solarPureTierCmds inp surplusWatts
      else if SOLAR_BLENDED_MIN_W ≤ surplusWatts then solarBlendedTierCmds inp surplusWatts
      else solarStopTierCmds inp

/-! ### Concrete inputs used by counterexamples and witnesses -/

/-- A single 15-minute charging slot starting at minute 0 with the fixed
per-slot capacity `MAX_CHARGE_RATE_KW * 0.25 = 2.25` kWh. -/
def exSlotA : ChargeSlot :=
  { start := 0, stop := 15, buyPrice := 1 / 10, sellPrice := 1 / 20,
    effectivePrice := 1 / 10, solarEnergy := 0, gridEnergy := 9 / 4, energy := 9 / 4 }

/-- Scheduler input with SOC 40 %, charge limit 40 % and one candidate slot
before the 01:00 deadline. -/
def c1cexInput : SchedInput :=
  { soc := some 40, chargeLimit := some 40, allSlots := [exSlotA], deadline := 60 }

/-- Scheduler input with SOC 40 %, charge limit 80 % and one candidate slot
before the 01:00 deadline. -/
def c1witInput : SchedInput :=
  { soc := some 40, chargeLimit := some 80, allSlots := [exSlotA], deadline := 60 }

/-- Hot-water input with the BT7 sensor unavailable while the previous
cycle was an allow with reason `cheapest_3h` whose stored slot covers the
current hour. -/
def c3cexInput : HWInput :=
  { bt7 := none, costZone := some 1, currentStatus := some 1, manualOverride := false,
    inverterPower := none, teslaContactorClosed := false, pool := [], nowMin := 10,
    prevStatus := 1, prevReason := "cheapest_3h",
    prevSlots := [{ hourStart := 0, hourEnd := 60, price := 1 / 10 }] }

/-- Hot-water input with the BT7 sensor unavailable and no stability
override pending. -/
def c3witInput : HWInput :=
  { bt7 := none, costZone := some 1, currentStatus := some 0, manualOverride := false,
    inverterPower := none, teslaContactorClosed := false, pool := [], nowMin := 10,
    prevStatus := 0, prevReason := "default_block", prevSlots := [] }

/-- The previously stored cheapest-hours slot used by the C4 witness. -/
def c4witPrevSlots : List HourSlot := [{ hourStart := 720, hourEnd := 780, price := 1 / 10 }]

/-- Hot-water input whose fresh evaluation blocks (BT7 46 °C, cost zone 3,
empty pool, midday) while the previous cycle allowed with `cheapest_3h`
and its stored slot still covers the current hour. -/
def c4witInput : HWInput :=
  { bt7 := some 46, costZone := some 3, currentStatus := some 0, manualOverride := false,
    inverterPower := none, teslaContactorClosed := false, pool := [], nowMin := 750,
    prevStatus := 1, prevReason := "cheapest_3h", prevSlots := c4witPrevSlots }

/-- Solar-opportunism input during a charging session started by the
scheduler (`"smart_charging"`), with zero surplus so that the stop tier is
reached. -/
def c5witInput : SolarInput :=
  { smartChargingEnabled := true, isDaylight := true, carAtHome := true,
    cableConnected := true, debounceElapsed := true, inScheduledSlot := false,
    changeAllowed := true, gridPower := some 0, isCharging := true,
    chargingStartedBy := some "smart_charging", soc := none, chargeLimit := none,
    currentPrices := none, rawTodayPrices := [], currentAmps := 13 }

/-- Two equally priced hours in chronological order. -/
def c7cexPoolA : List HourSlot :=
  [{ hourStart := 0, hourEnd := 60, price := 1 },
   { hourStart := 60, hourEnd := 120, price := 1 }]

/-- The same two hours in the opposite order. -/
def c7cexPoolB : List HourSlot :=
  [{ hourStart := 60, hourEnd := 120, price := 1 },
   { hourStart := 0, hourEnd := 60, price := 1 }]

/-- Three distinctly priced hours. -/
def c7witPool : List HourSlot :=
  [{ hourStart := 0, hourEnd := 60, price := 2 },
   { hourStart := 60, hourEnd := 120, price := 1 },
   { hourStart := 120, hourEnd := 180, price := 3 }]

/-- A reordering of `c7witPool`. -/
def c7witPool2 : List HourSlot :=
  [{ hourStart := 120, hourEnd := 180, price := 3 },
   { hourStart := 0, hourEnd := 60, price := 2 },
   { hourStart := 60, hourEnd := 120, price := 1 }]

/-- Agreement ratio computed by `_calculate_smoothed_cost` on a detected
zone change: the fraction of lookahead prices whose zone matches the raw
zone. -/
def smoothAgreement (p tc ta te : ℚ) (future : List ℚ) : ℚ :=
  (((future.map (fun q => calculateCostForPrice q tc ta te)).countP
    (fun z => z = calculateCostForPrice p tc ta te) : ℚ)) / ((future.length : ℚ))

/-! ### Helper lemmas -/

theorem foldl_min_le_init (l : List ℚ) : ∀ a : ℚ, l.foldl min a ≤ a := by
  induction l with
  | nil => intro a; exact le_refl a
  | cons x xs ih => intro a; exact le_trans (ih (min a x)) (min_le_left a x)

theorem foldl_min_le_mem (l : List ℚ) : ∀ (a x : ℚ), x ∈ l → l.foldl min a ≤ x := by
  induction l with
  | nil => intro a x hx; cases hx
  | cons y ys ih =>
    intro a x hx
    rcases List.mem_cons.mp hx with rfl | hx
    · exact le_trans (foldl_min_le_init ys (min a x)) (min_le_right a x)
    · exact ih (min a y) x hx

theorem le_foldl_max_init (l : List ℚ) : ∀ a : ℚ, a ≤ l.foldl max a := by
  induction l with
  | nil => intro a; exact le_refl a
  | cons x xs ih => intro a; exact le_trans (le_max_left a x) (ih (max a x))

theorem le_foldl_max_mem (l : List ℚ) : ∀ (a x : ℚ), x ∈ l → x ≤ l.foldl max a := by
  induction l with
  | nil => intro a x hx; cases hx
  | cons y ys ih =>
    intro a x hx
    rcases List.mem_cons.mp hx with rfl | hx
    · exact le_trans (le_max_right a x) (le_foldl_max_init ys (max a x))
    · exact ih (max a y) x hx

theorem pyListMin_le (l : List ℚ) (x : ℚ) (hx : x ∈ l) : pyListMin l ≤ x := by
  cases l with
  | nil => cases hx
  | cons y ys =>
    rcases List.mem_cons.mp hx with rfl | hx
    · exact foldl_min_le_init ys x
    · exact foldl_min_le_mem ys y x hx

theorem le_pyListMax (l : List ℚ) (x : ℚ) (hx : x ∈ l) : x ≤ pyListMax l := by
  cases l with
  | nil => cases hx
  | cons y ys =>
    rcases List.mem_cons.mp hx with rfl | hx
    · exact le_foldl_max_init ys x
    · exact le_foldl_max_mem ys y x hx

theorem length_mul_le_sum (l : List ℚ) (m : ℚ) (h : ∀ x ∈ l, m ≤ x) :
    (l.length : ℚ) * m ≤ l.sum := by
  induction l with
  | nil => simp
  | cons x xs ih =>
    have hx := h x (List.mem_cons_self x xs)
    have ih2 := ih (fun y hy => h y (List.mem_cons_of_mem x hy))
    simp only [List.length_cons, List.sum_cons]
    push_cast
    linarith

theorem sum_le_length_mul (l : List ℚ) (m : ℚ) (h : ∀ x ∈ l, x ≤ m) :
    l.sum ≤ (l.length : ℚ) * m := by
  induction l with
  | nil => simp
  | cons x xs ih =>
    have hx := h x (List.mem_cons_self x xs)
    have ih2 := ih (fun y hy => h y (List.mem_cons_of_mem x hy))
    simp only [List.length_cons, List.sum_cons]
    push_cast
    linarith

/-! ### C6: price normalization of a long tick -/

/-- C6: for every well-formed tick with start `s`, end `e` and value `v`,
if the duration exceeds 45 minutes both normalization variants yield
exactly four contiguous 15-minute intervals carrying `v`, the first
starting at `s`; if the duration is at most 45 minutes, the tick passes
through unchanged in both variants. -/
theorem c6_normalize_tick (t : RawTick) (s e : Int) (v : ℚ)
    (hs : t.start = some s) (he : t.stop = some e) (hv : t.value = some v) :
    (45 < e - s →
      normalizePriceEntryKeep t =
        [{ start := some s, stop := some (s + 15), value := some v },
         { start := some (s + 15), stop := some (s + 30), value := some v },
         { start := some (s + 30), stop := some (s + 45), value := some v },
         { start := some (s + 45), stop := some (s + 60), value := some v }] ∧
      normalizePriceEntryDropping t =
        [{ start := some s, stop := some (s + 15), value := some v },
         { start := some (s + 15), stop := some (s + 30), value := some v },
         { start := some (s + 30), stop := some (s + 45), value := some v },
         { start := some (s + 45), stop := some (s + 60), value := some v }]) ∧
    (e - s ≤ 45 →
      normalizePriceEntryKeep t = [t] ∧ normalizePriceEntryDropping t = [t]) := by
  obtain ⟨ts, te, tv⟩ := t
  simp only at hs he hv
  subst hs he hv
  have hr : List.range 4 = [0, 1, 2, 3] := rfl
  constructor
  · intro h
    constructor <;>
    · simp only [normalizePriceEntryKeep, normalizePriceEntryDropping, if_pos h, hr,
        List.map_cons, List.map_nil]
      norm_num
  · intro h
    have h' : ¬ 45 < e - s := not_lt.mpr h
    constructor <;>
    · simp only [normalizePriceEntryKeep, normalizePriceEntryDropping, if_neg h']

/-- C6 witness: the theorem applied to a concrete 60-minute tick of value 1. -/
theorem c6_normalize_tick_witness :
    normalizePriceEntryKeep { start := some 0, stop := some 60, value := some 1 } =
      [{ start := some 0, stop := some 15, value := some 1 },
       { start := some 15, stop := some 30, value := some 1 },
       { start := some 30, stop := some 45, value := some 1 },
       { start := some 45, stop := some 60, value := some 1 }] := by
  have h := (c6_normalize_tick { start := some 0, stop := some 60, value := some 1 }
    0 60 1 rfl rfl rfl).1 (by norm_num)
  simpa using h.1

/-! ### C10: watts-to-amps conversion -/

/-- C10: for every rational excess-watts input, the computed target amps
equal the truncation of `excess / (230 * 3)` clamped into `[6, 13]`, hence
always lie in `[MIN_CHARGE_AMPS, MAX_CHARGE_AMPS]`; for any input below
4830 W (including zero and negative surplus) the result is 6, never 0. -/
theorem c10_target_amps (w : ℚ) :
    MIN_CHARGE_AMPS ≤ calculateTargetAmpsFromPower w ∧
    calculateTargetAmpsFromPower w ≤ MAX_CHARGE_AMPS ∧
    calculateTargetAmpsFromPower w = max 6 (min 13 (ratTrunc (w / (230 * 3)))) ∧
    (w < 4830 → calculateTargetAmpsFromPower w = 6) := by
  have hdef : calculateTargetAmpsFromPower w = max 6 (min 13 (ratTrunc (w / (230 * 3)))) := by
    simp only [calculateTargetAmpsFromPower, VOLTAGE, PHASES, MIN_CHARGE_AMPS, MAX_CHARGE_AMPS]
  refine ⟨?_, ?_, hdef, ?_⟩
  · rw [hdef]
    show (6 : Int) ≤ _
    omega
  · rw [hdef]
    show _ ≤ (13 : Int)
    omega
  · intro hw
    have h7 : ratTrunc (w / (230 * 3)) < 7 := by
      unfold ratTrunc
      split_ifs with h0
      · rw [show ((7 : Int)) = ((7 : Nat) : Int) by norm_num, Int.floor_lt]
        push_cast
        rw [div_lt_iff₀ (by norm_num)]
        linarith
      · have hneg : w / (230 * 3) ≤ ((0 : Int) : ℚ) := by
          push_cast
          exact le_of_lt (not_le.mp h0)
        have hc : ⌈w / (230 * 3)⌉ ≤ 0 := Int.ceil_le.mpr hneg
        omega
    rw [hdef]
    omega

/-- C10 witness: the theorem applied at 0 W and at 4829 W. -/
theorem c10_target_amps_witness :
    calculateTargetAmpsFromPower 0 = 6 ∧ calculateTargetAmpsFromPower 4829 = 6 :=
  ⟨(c10_target_amps 0).2.2.2 (by norm_num), (c10_target_amps 4829).2.2.2 (by norm_num)⟩

/-! ### C9: zone smoothing commit rule -/

/-- C9: on each smoothing step, (i) if the raw zone equals the persisted
zone the result keeps the zone with agreement 1; (ii) otherwise with fewer
than 2 lookahead prices the raw zone is accepted immediately; (iii)
otherwise the change is committed exactly when the lookahead agreement is
at least 0.75, and the previous zone is retained otherwise. -/
theorem c9_zone_smoothing (p : ℚ) (cur : Int) (tc ta te : ℚ) (future : List ℚ) :
    (calculateCostForPrice p tc ta te = cur →
      calculateSmoothedCost p cur tc ta te future = (cur, cur, 1)) ∧
    (calculateCostForPrice p tc ta te ≠ cur → future.length < 2 →
      calculateSmoothedCost p cur tc ta te future =
        (calculateCostForPrice p tc ta te, calculateCostForPrice p tc ta te, 1)) ∧
    (calculateCostForPrice p tc ta te ≠ cur → 2 ≤ future.length →
      ((3 : ℚ) / 4 ≤ smoothAgreement p tc ta te future →
        calculateSmoothedCost p cur tc ta te future =
          (calculateCostForPrice p tc ta te, calculateCostForPrice p tc ta te,
            smoothAgreement p tc ta te future)) ∧
      (smoothAgreement p tc ta te future < 3 / 4 →
        calculateSmoothedCost p cur tc ta te future =
          (cur, calculateCostForPrice p tc ta te, smoothAgreement p tc ta te future)) ∧
      ((calculateSmoothedCost p cur tc ta te future).1 = calculateCostForPrice p tc ta te ↔
        (3 : ℚ) / 4 ≤ smoothAgreement p tc ta te future)) := by
  refine ⟨fun h => ?_, fun h hlen => ?_, fun h hlen => ?_⟩
  · simp [calculateSmoothedCost, h]
  · simp only [calculateSmoothedCost, if_neg h, MIN_LOOKAHEAD_INTERVALS, if_pos hlen]
  · have hlen' : ¬ future.length < MIN_LOOKAHEAD_INTERVALS := by
      simp only [MIN_LOOKAHEAD_INTERVALS]
      omega
    have hag : ((future.map (fun q => calculateCostForPrice q tc ta te)).countP
        (fun z => z = calculateCostForPrice p tc ta te) : ℚ) /
        (((future.map (fun q => calculateCostForPrice q tc ta te)).length : ℚ)) =
        smoothAgreement p tc ta te future := by
      simp only [smoothAgreement, List.length_map]
    simp only [calculateSmoothedCost, if_neg h, if_neg hlen', LOOKAHEAD_MAJORITY_THRESHOLD, hag]
    refine ⟨fun hge => ?_, fun hlt => ?_, ?_⟩
    · simp only [if_pos hge]
    · simp only [if_neg (not_le.mpr hlt)]
    · constructor
      · intro hfst
        by_contra hnot
        simp only [if_neg hnot] at hfst
        exact h hfst.symm
      · intro hge
        simp only [if_pos hge]

/-- C9 witness: a zone change (raw 0 vs current 3) with four lookahead
prices of which exactly three agree (agreement 0.75), so the change
commits. -/
theorem c9_zone_smoothing_witness :
    calculateSmoothedCost 0 3 1 2 3 [0, 0, 0, 10] = (0, 0, 3 / 4) := by
  have hag : smoothAgreement 0 1 2 3 [0, 0, 0, 10] = 3 / 4 := by
    norm_num [smoothAgreement, calculateCostForPrice, List.countP_cons, List.countP_nil]
  have h := ((c9_zone_smoothing 0 3 1 2 3 [0, 0, 0, 10]).2.2 (by decide) (by decide)).1
    (by norm_num [hag])
  rw [h, hag]
  norm_num [calculateCostForPrice]

/-! ### C8: cost zone classification -/

/-- C8: with thresholds computed from a nonempty price distribution as in
`updateSpotPriceSensors` (`cheap = (avg + min) / 2`,
`expensive = (avg + max) / 2`), the cheap threshold is at most the average
and the average at most the expensive threshold; the classifier maps
prices into the four bands accordingly and is monotone non-decreasing in
the price. -/
theorem c8_cost_zone_classification (prices : List ℚ) (hne : prices ≠ [])
    (tc ta te : ℚ)
    (htc : tc = (pyAvg prices + pyListMin prices) / 2)
    (hta : ta = pyAvg prices)
    (hte : te = (pyAvg prices + pyListMax prices) / 2) :
    tc ≤ ta ∧ ta ≤ te ∧
    (∀ p, p < tc → calculateCostForPrice p tc ta te = 0) ∧
    (∀ p, tc ≤ p → p < ta → calculateCostForPrice p tc ta te = 1) ∧
    (∀ p, ta ≤ p → p < te → calculateCostForPrice p tc ta te = 2) ∧
    (∀ p, te ≤ p → calculateCostForPrice p tc ta te = 3) ∧
    (∀ p1 p2, p1 ≤ p2 →
      calculateCostForPrice p1 tc ta te ≤ calculateCostForPrice p2 tc ta te) := by
  have hlen : 0 < ((prices.length : ℚ)) := by
    have h0 : 0 < prices.length := List.length_pos.mpr hne
    exact_mod_cast h0
  have hminavg : pyListMin prices ≤ pyAvg prices := by
    rw [pyAvg, le_div_iff₀ hlen, mul_comm]
    exact length_mul_le_sum prices (pyListMin prices) (fun x hx => pyListMin_le prices x hx)
  have havgmax : pyAvg prices ≤ pyListMax prices := by
    rw [pyAvg, div_le_iff₀ hlen, mul_comm]
    exact sum_le_length_mul prices (pyListMax prices) (fun x hx => le_pyListMax prices x hx)
  have h1 : tc ≤ ta := by rw [htc, hta]; linarith
  have h2 : ta ≤ te := by rw [hta, hte]; linarith
  refine ⟨h1, h2, ?_, ?_, ?_, ?_, ?_⟩
  · intro p hp
    simp only [calculateCostForPrice, if_pos hp]
  · intro p hp1 hp2
    simp only [calculateCostForPrice, if_neg (not_lt.mpr hp1), if_pos hp2]
  · intro p hp1 hp2
    have hnc : ¬ p < tc := not_lt.mpr (le_trans h1 hp1)
    simp only [calculateCostForPrice, if_neg hnc, if_neg (not_lt.mpr hp1), if_pos hp2]
  · intro p hp
    have hna : ¬ p < ta := not_lt.mpr (le_trans h2 hp)
    have hnc : ¬ p < tc := not_lt.mpr (le_trans h1 (le_trans h2 hp))
    simp only [calculateCostForPrice, if_neg hnc, if_neg hna, if_neg (not_lt.mpr hp)]
  · intro p1 p2 hle
    simp only [calculateCostForPrice]
    split_ifs <;> first | (exfalso; linarith) | norm_num

/-- C8 witness: thresholds computed from the distribution `[1, 2, 3]`
(average 2, cheap threshold 1.5, expensive threshold 2.5), with the
classifier evaluated in the lowest and highest bands. -/
theorem c8_cost_zone_classification_witness :
    calculateCostForPrice 1 (3 / 2) 2 (5 / 2) = 0 ∧
    calculateCostForPrice 9 (3 / 2) 2 (5 / 2) = 3 ∧
    (3 : ℚ) / 2 ≤ 2 := by
  have havg : pyAvg [1, 2, 3] = 2 := by norm_num [pyAvg]
  have hmin : pyListMin [1, 2, 3] = 1 := by norm_num [pyListMin]
  have hmax : pyListMax [1, 2, 3] = 3 := by norm_num [pyListMax]
  have h := c8_cost_zone_classification [1, 2, 3] (by decide) (3 / 2) 2 (5 / 2)
    (by rw [havg, hmin]; norm_num) (by rw [havg]) (by rw [havg, hmax]; norm_num)
  exact ⟨h.2.2.1 1 (by norm_num), h.2.2.2.2.2.1 9 (by norm_num), h.1⟩

/-! ### C2: scheduler preconditions and the already-complete path -/

/-- C2: a schedule-calculation run with the SOC or the charge limit
unavailable returns a failure with status code -1 and stores nothing (the
previously stored schedule is left unchanged); a run with both available
and SOC at or above the limit stores an empty schedule with mode
`"complete"` and status code 5. -/
theorem c2_preconditions (inp : SchedInput) :
    ((inp.soc = none ∨ inp.chargeLimit = none) →
      calculateAndStoreSchedule inp =
        { success := false, statusCode := -1, stored := none, mandatory := [], optional := [] }) ∧
    (∀ s l : ℚ, inp.soc = some s → inp.chargeLimit = some l → l ≤ s →
      calculateAndStoreSchedule inp =
        { success := true, statusCode := 5, stored := some ([], "complete"),
          mandatory := [], optional := [] }) := by
  constructor
  · intro h
    rcases h with h | h
    · simp [calculateAndStoreSchedule, h, schedFail]
    · cases hsoc : inp.soc with
      | none => simp [calculateAndStoreSchedule, hsoc, schedFail]
      | some s => simp [calculateAndStoreSchedule, hsoc, h, schedFail]
  · intro s l hs hl hle
    simp [calculateAndStoreSchedule, hs, hl, schedWithKnown, if_pos hle, storeSchedule]

/-- C2 witness: the theorem applied to a run with unavailable SOC and to a
run at SOC 80 % with charge limit 80 %. -/
theorem c2_preconditions_witness :
    calculateAndStoreSchedule { soc := none, chargeLimit := some 80, allSlots := [], deadline := 0 } =
      { success := false, statusCode := -1, stored := none, mandatory := [], optional := [] } ∧
    calculateAndStoreSchedule { soc := some 80, chargeLimit := some 80, allSlots := [], deadline := 0 } =
      { success := true, statusCode := 5, stored := some ([], "complete"),
        mandatory := [], optional := [] } :=
  ⟨(c2_preconditions _).1 (Or.inl rfl),
   (c2_preconditions _).2 80 80 rfl rfl le_rfl⟩

/-! ### C1: pass-1 guarantee of the two-pass scheduler -/

theorem energySum_nil : energySum [] = 0 := rfl

theorem energySum_cons (s : ChargeSlot) (l : List ChargeSlot) :
    energySum (s :: l) = s.energy + energySum l := by
  simp [energySum]

/-- The greedy accumulation loop either reaches the requested energy or
consumes the whole candidate list. -/
theorem selectSlotsGo_spec (energyNeeded : ℚ) :
    ∀ (slots : List ChargeSlot) (acc : ℚ),
      energyNeeded ≤ acc + energySum (selectSlotsGo energyNeeded slots acc) ∨
      selectSlotsGo energyNeeded slots acc = slots := by
  intro slots
  induction slots with
  | nil => intro acc; right; rfl
  | cons s rest ih =>
    intro acc
    by_cases h : energyNeeded ≤ acc
    · left
      rw [selectSlotsGo, if_pos h, energySum_nil]
      linarith
    · rcases ih (acc + s.energy) with h1 | h1
      · left
        rw [selectSlotsGo, if_neg h, energySum_cons]
        linarith
      · right
        rw [selectSlotsGo, if_neg h, h1]

/-- `_select_slots_for_energy` either covers the requested positive energy
or returns all candidate slots. -/
theorem selectSlotsForEnergy_spec (slots : List ChargeSlot) (energyNeeded : ℚ)
    (h : 0 < energyNeeded) :
    energyNeeded ≤ energySum (selectSlotsForEnergy slots energyNeeded) ∨
    selectSlotsForEnergy slots energyNeeded = slots := by
  have hspec := selectSlotsGo_spec energyNeeded slots 0
  rw [selectSlotsForEnergy, if_neg (not_le.mpr h)]
  rcases hspec with h1 | h1
  · left; linarith
  · right; exact h1

/-- On a nonempty candidate list with positive need, the greedy selection
is nonempty. -/
theorem selectSlotsForEnergy_ne_nil (s : ChargeSlot) (rest : List ChargeSlot)
    (energyNeeded : ℚ) (h : 0 < energyNeeded) :
    selectSlotsForEnergy (s :: rest) energyNeeded ≠ [] := by
  rw [selectSlotsForEnergy, if_neg (not_le.mpr h), selectSlotsGo,
    if_neg (not_le.mpr h)]
  exact List.cons_ne_nil _ _

/-- Pass 2 and the store step do not change a nonempty mandatory list. -/
theorem schedAfterPass1_mandatory_of_ne (soc chargeLimit : ℚ)
    (allSlots m : List ChargeSlot) (hm : m ≠ []) :
    (schedAfterPass1 soc chargeLimit allSlots m).mandatory = m := by
  cases m with
  | nil => exact absurd rfl hm
  | cons a t =>
    simp only [schedAfterPass1, List.cons_append, List.isEmpty_cons]
    simp

/-- Pass 2 and the store step leave the mandatory list empty when pass 1
selected nothing. -/
theorem schedAfterPass1_mandatory_nil (soc chargeLimit : ℚ) (allSlots : List ChargeSlot) :
    (schedAfterPass1 soc chargeLimit allSlots []).mandatory = [] := by
  simp only [schedAfterPass1]
  rw [apply_ite SchedResult.mandatory]
  simp

/-- C1 amended: for every run with known SOC and charge limit, if SOC is
at least `MIN_SOC_GUARANTEE` the mandatory list is empty; and — provided
SOC is below the charge limit, so that the run is not cut short by the
already-complete path — if SOC is below `MIN_SOC_GUARANTEE` and some
candidate slot starts before the deadline, then the selected mandatory
slots cover the required wall-side energy or every candidate slot before
the deadline was selected. -/
theorem c1_pass1_amended (inp : SchedInput) (s l : ℚ)
    (hs : inp.soc = some s) (hl : inp.chargeLimit = some l) :
    (MIN_SOC_GUARANTEE ≤ s → (calculateAndStoreSchedule inp).mandatory = []) ∧
    (s < l → s < MIN_SOC_GUARANTEE →
      (∃ sl0 ∈ inp.allSlots, sl0.start < inp.deadline) →
      calculateKwhNeeded s MIN_SOC_GUARANTEE ≤
        energySum ((calculateAndStoreSchedule inp).mandatory) ∨
      ∀ sl0 ∈ inp.allSlots, sl0.start < inp.deadline →
        sl0 ∈ (calculateAndStoreSchedule inp).mandatory) := by
  have hcalc : calculateAndStoreSchedule inp = schedWithKnown s l inp.allSlots inp.deadline := by
    simp [calculateAndStoreSchedule, hs, hl]
  constructor
  · intro hge
    rw [hcalc]
    simp only [schedWithKnown]
    split_ifs with h1 h2 h3 h4
    · rfl
    · rfl
    · exact absurd h3 (not_lt.mpr hge)
    · exact absurd h3 (not_lt.mpr hge)
    · exact schedAfterPass1_mandatory_nil s l inp.allSlots
  · intro hsl hlt hex
    obtain ⟨w, hwmem, hwlt⟩ := hex
    rw [hcalc]
    simp only [schedWithKnown]
    rw [if_neg (not_le.mpr hsl)]
    have hallne : inp.allSlots.isEmpty = false := by
      cases hAll : inp.allSlots with
      | nil => rw [hAll] at hwmem; cases hwmem
      | cons a t => rfl
    rw [hallne]
    simp only [Bool.false_eq_true, if_false, if_pos hlt]
    set before := inp.allSlots.filter (fun s0 => decide (s0.start < inp.deadline)) with hbefore
    have hwbefore : w ∈ before := by
      rw [hbefore]
      exact List.mem_filter.mpr ⟨hwmem, by simpa using hwlt⟩
    have hbne : before.isEmpty = false := by
      cases hB : before with
      | nil => rw [hB] at hwbefore; cases hwbefore
      | cons a t => rfl
    rw [hbne]
    simp only [Bool.false_eq_true, if_false]
    have hneed : 0 < calculateKwhNeeded s MIN_SOC_GUARANTEE := by
      rw [calculateKwhNeeded, if_neg (not_le.mpr hlt)]
      have h1 : 0 < MIN_SOC_GUARANTEE - s := by linarith
      have h2 : 0 < (MIN_SOC_GUARANTEE - s) / 100 := div_pos h1 (by norm_num)
      have h3 : 0 < (MIN_SOC_GUARANTEE - s) / 100 * BATTERY_CAPACITY_KWH :=
        mul_pos h2 (by norm_num [BATTERY_CAPACITY_KWH])
      exact div_pos h3 (by norm_num [CHARGING_EFFICIENCY])
    set sortedBefore := List.insertionSort leEff before with hsorted
    have hsortne : sortedBefore ≠ [] := by
      intro hnil
      have hlen := List.length_insertionSort leEff before
      rw [← hsorted, hnil] at hlen
      cases hB : before with
      | nil => rw [hB] at hwbefore; cases hwbefore
      | cons a t => rw [hB] at hlen; simp at hlen
    set mandSel := selectSlotsForEnergy sortedBefore (calculateKwhNeeded s MIN_SOC_GUARANTEE)
      with hmand
    have hmandne : mandSel ≠ [] := by
      cases hS : sortedBefore with
      | nil => exact absurd hS hsortne
      | cons a t =>
        rw [hmand, hS]
        exact selectSlotsForEnergy_ne_nil a t _ hneed
    rw [schedAfterPass1_mandatory_of_ne s l inp.allSlots mandSel hmandne]
    rcases selectSlotsForEnergy_spec sortedBefore (calculateKwhNeeded s MIN_SOC_GUARANTEE)
      hneed with h1 | h1
    · left
      rw [hmand]
      exact h1
    · right
      intro sl0 hmem0 hlt0
      have h0 : sl0 ∈ before := by
        rw [hbefore]
        exact List.mem_filter.mpr ⟨hmem0, by simpa using hlt0⟩
      have h0s : sl0 ∈ sortedBefore := by
        rw [hsorted]
        exact (List.mem_insertionSort leEff).mpr h0
      rw [hmand, h1]
      exact h0s

/-- C1 counterexample: with SOC 40 % and charge limit 40 % the run takes
the already-complete path, so although SOC is below `MIN_SOC_GUARANTEE`
and a candidate slot starts before the deadline, the mandatory list covers
neither the required energy nor all candidate slots before the deadline,
contradicting the claim as stated. -/
theorem c1_pass1_counterexample :
    c1cexInput.soc = some 40 ∧ c1cexInput.chargeLimit = some 40 ∧
    (40 : ℚ) < MIN_SOC_GUARANTEE ∧
    exSlotA ∈ c1cexInput.allSlots ∧ exSlotA.start < c1cexInput.deadline ∧
    ¬ (calculateKwhNeeded 40 MIN_SOC_GUARANTEE ≤
        energySum ((calculateAndStoreSchedule c1cexInput).mandatory)) ∧
    exSlotA ∉ (calculateAndStoreSchedule c1cexInput).mandatory := by
  have hres : (calculateAndStoreSchedule c1cexInput).mandatory = [] := by
    simp [calculateAndStoreSchedule, c1cexInput, schedWithKnown, storeSchedule]
  refine ⟨rfl, rfl, by norm_num [MIN_SOC_GUARANTEE], by simp [c1cexInput],
    by norm_num [exSlotA, c1cexInput], ?_, ?_⟩
  · rw [hres, energySum_nil]
    norm_num [calculateKwhNeeded, MIN_SOC_GUARANTEE, BATTERY_CAPACITY_KWH, CHARGING_EFFICIENCY]
  · rw [hres]
    simp

/-- C1 witness: with SOC 40 %, limit 80 % and a single 2.25 kWh slot
before the deadline, the required energy cannot be covered, so the
best-effort branch of the amended theorem puts the slot into the
mandatory list. -/
theorem c1_pass1_witness :
    exSlotA ∈ (calculateAndStoreSchedule c1witInput).mandatory := by
  have hmand : (calculateAndStoreSchedule c1witInput).mandatory = [exSlotA] := by
    norm_num [calculateAndStoreSchedule, c1witInput, schedWithKnown, MIN_SOC_GUARANTEE,
      calculateKwhNeeded, BATTERY_CAPACITY_KWH, CHARGING_EFFICIENCY, schedAfterPass1,
      selectSlotsForEnergy, selectSlotsGo, energySum, exSlotA, storeSchedule]
  have h := (c1_pass1_amended c1witInput 40 80 rfl rfl).2 (by norm_num)
    (by norm_num [MIN_SOC_GUARANTEE])
    ⟨exSlotA, by simp [c1witInput], by norm_num [exSlotA, c1witInput]⟩
  rcases h with h | h
  · exfalso
    rw [hmand] at h
    rw [show energySum [exSlotA] = 9 / 4 by norm_num [energySum, exSlotA]] at h
    rw [calculateKwhNeeded, if_neg (by norm_num [MIN_SOC_GUARANTEE])] at h
    norm_num [MIN_SOC_GUARANTEE, BATTERY_CAPACITY_KWH, CHARGING_EFFICIENCY] at h
  · exact h exSlotA (by simp [c1witInput]) (by norm_num [exSlotA, c1witInput])

/-! ### C4: stability rule of the hot-water optimizer -/

/-- C4: when the previous persisted decision was an allow with reason
`cheapest_3h` (or its stability variant), the freshly computed decision is
a block, and the current hour start lies inside some slot of the
previously stored schedule, the persisted decision is an allow with reason
`cheapest_3h_stability` and the previously stored `schedule_slots` value
is re-persisted unchanged. -/
theorem c4_stability_rule (inp : HWInput)
    (hprev : (1 : ℚ) / 2 < inp.prevStatus)
    (hreason : inp.prevReason = "cheapest_3h" ∨ inp.prevReason = "cheapest_3h_stability")
    (hfresh : (makeHeatingDecision inp).status = 0)
    (hslot : inp.prevSlots.any (fun s =>
      decide (s.hourStart ≤ inp.nowMin - inp.nowMin % 60) &&
      decide (inp.nowMin - inp.nowMin % 60 < s.hourEnd)) = true) :
    updateHotWaterHeatingStatus inp =
      { status := 1, reason := "cheapest_3h_stability", scheduleSlots := inp.prevSlots } := by
  have hcond : stabilityOverride inp = true := by
    rw [stabilityOverride]
    rw [Bool.and_eq_true, Bool.and_eq_true]
    refine ⟨⟨by simpa using hprev, ?_⟩, hslot⟩
    rcases hreason with h | h <;> simp [h]
  rw [updateHotWaterHeatingStatus]
  rw [hcond]
  rw [show ((makeHeatingDecision inp).status == 0) = true by simpa using hfresh]
  rfl

/-- C4 witness: the theorem applied to `c4witInput`, whose fresh
evaluation blocks by default while the previous `cheapest_3h` slot still
covers the current hour. -/
theorem c4_stability_rule_witness :
    updateHotWaterHeatingStatus c4witInput =
      { status := 1, reason := "cheapest_3h_stability", scheduleSlots := c4witPrevSlots } := by
  have hfresh : (makeHeatingDecision c4witInput).status = 0 := by
    norm_num [makeHeatingDecision, c4witInput, checkSolarOverride, selectCheapestHours,
      evaluateMorningGuarantee, checkTemperatureSafety]
  exact c4_stability_rule c4witInput (by norm_num [c4witInput]) (Or.inl rfl) hfresh
    (by decide)

/-! ### C3: BT7-unavailable failure semantics -/

/-- C3 counterexample: with the BT7 sensor unavailable but a previous
`cheapest_3h` allow whose stored slot covers the current hour, the
persisted decision of the update cycle is an allow with reason
`cheapest_3h_stability` — not a block with reason `bt7_unavailable` — so
the decision is not independent of the previous cycle's decision and
schedule. -/
theorem c3_bt7_counterexample :
    c3cexInput.bt7 = none ∧
    (updateHotWaterHeatingStatus c3cexInput).status = 1 ∧
    (updateHotWaterHeatingStatus c3cexInput).reason = "cheapest_3h_stability" := by
  have hup : updateHotWaterHeatingStatus c3cexInput =
      { status := 1, reason := "cheapest_3h_stability",
        scheduleSlots := c3cexInput.prevSlots } := by
    have hcond : stabilityOverride c3cexInput = true := by
      rw [stabilityOverride]
      norm_num [c3cexInput]
    rw [updateHotWaterHeatingStatus, hcond]
    rfl
  exact ⟨rfl, by rw [hup], by rw [hup]⟩

/-- C3 amended: with BT7 unavailable the layer evaluation always yields a
block with reason `bt7_unavailable` regardless of every other input, and
the persisted decision equals it — except that the post-evaluation
stability rule may still override the block to an allow with reason
`cheapest_3h_stability` when the previous cycle's allow with a
cheapest-3h reason still covers the current hour. -/
theorem c3_bt7_unavailable_amended (inp : HWInput) (h : inp.bt7 = none) :
    makeHeatingDecision inp =
      { status := 0, reason := "bt7_unavailable", scheduleSlots := [] } ∧
    (stabilityOverride inp = false →
      updateHotWaterHeatingStatus inp =
        { status := 0, reason := "bt7_unavailable", scheduleSlots := [] }) ∧
    (stabilityOverride inp = true →
      updateHotWaterHeatingStatus inp =
        { status := 1, reason := "cheapest_3h_stability", scheduleSlots := inp.prevSlots }) := by
  have hd : makeHeatingDecision inp =
      { status := 0, reason := "bt7_unavailable", scheduleSlots := [] } := by
    rw [makeHeatingDecision, h]
  refine ⟨hd, fun hso => ?_, fun hso => ?_⟩
  · rw [updateHotWaterHeatingStatus, hso, hd]
    rfl
  · rw [updateHotWaterHeatingStatus, hso, hd]
    rfl

/-- C3 witness: the amended theorem applied to a BT7-unavailable input
with no pending stability override. -/
theorem c3_bt7_unavailable_witness :
    updateHotWaterHeatingStatus c3witInput =
      { status := 0, reason := "bt7_unavailable", scheduleSlots := [] } :=
  (c3_bt7_unavailable_amended c3witInput rfl).2.1 (by norm_num [stabilityOverride, c3witInput])

/-! ### C5: ownership rule of the solar-opportunism controller -/

/-- C5: in every invocation of the solar-opportunism handler, a
stop-charging command is never issued when the recorded
`charging_started_by` attribute is not `"solar_opportunistic"` — in
particular scheduler-started (`"smart_charging"`) and unrecognized manual
sessions are never stopped by this controller. -/
theorem c5_ownership (inp : SolarInput)
    (h : inp.chargingStartedBy ≠ some "solar_opportunistic") :
    ChargeCmd.stopCharge ∉ handleSolarOpportunity inp := by
  have hmode : isInOpportunisticSolarMode inp = false := by
    rw [isInOpportunisticSolarMode]
    simpa using h
  have hstop : stopSolarOpportunisticCharging inp = [] := by
    rw [stopSolarOpportunisticCharging, hmode]
    rfl
  have hsoc : solarSocLimitCmds inp = [] := by
    rw [solarSocLimitCmds, hmode, Bool.and_false]
    rfl
  have hpure : ChargeCmd.stopCharge ∉ solarPureTierCmds inp (-(inp.gridPower.getD 0)) := by
    rw [solarPureTierCmds]
    split_ifs <;> simp
  have hblend : ChargeCmd.stopCharge ∉ solarBlendedTierCmds inp (-(inp.gridPower.getD 0)) := by
    rw [solarBlendedTierCmds]
    rcases inp.currentPrices with _ | ⟨bp, sp⟩
    · rw [hmode, Bool.and_false]
      simp
    · rw [hmode]
      split_ifs <;> simp_all
  have htier3 : solarStopTierCmds inp = [] := by
    rw [solarStopTierCmds, hmode, Bool.and_false]
    rfl
  rw [handleSolarOpportunity]
  split_ifs <;> try simp
  rcases hgp : inp.gridPower with _ | gp
  · simp
  · have hget : -(inp.gridPower.getD 0) = -gp := by rw [hgp]; rfl
    rw [hget] at hpure hblend
    simp only []
    split_ifs <;> first
      | (rw [hsoc]; simp)
      | exact hpure
      | exact hblend
      | (rw [htier3]; simp)

/-- C5 witness: the theorem applied during a session started by the
scheduler, with zero surplus so that only the stop tier could have fired. -/
theorem c5_ownership_witness :
    c5witInput.chargingStartedBy ≠ some "solar_opportunistic" ∧
    ChargeCmd.stopCharge ∉ handleSolarOpportunity c5witInput :=
  ⟨by simp [c5witInput], c5_ownership c5witInput (by simp [c5witInput])⟩

/-! ### C7: cheapest-N selection -/

/-- Two price-sorted permutations of a pool with pairwise distinct prices
are equal (uniqueness of the stable sort result under distinct keys). -/
theorem sorted_perm_distinct_eq {l1 l2 : List HourSlot}
    (hperm : l1.Perm l2)
    (h1 : List.Sorted lePrice l1) (h2 : List.Sorted lePrice l2)
    (hd : l1.Pairwise (fun a b => a.price ≠ b.price)) : l1 = l2 := by
  letI : IsAntisymm HourSlot (fun a b => a.price < b.price ∨ a = b) := by
    refine ⟨fun a b hab hba => ?_⟩
    rcases hab with hab | hab
    · rcases hba with hba | hba
      · exact absurd hba (lt_asymm hab)
      · exact hba.symm
    · exact hab
  have hd2 : l2.Pairwise (fun a b => a.price ≠ b.price) :=
    (List.Perm.pairwise_iff (fun hxy => Ne.symm hxy) hperm).mp hd
  have hs1 : List.Sorted (fun a b : HourSlot => a.price < b.price ∨ a = b) l1 :=
    (List.Pairwise.and h1 hd).imp (fun hab => Or.inl (lt_of_le_of_ne hab.1 hab.2))
  have hs2 : List.Sorted (fun a b : HourSlot => a.price < b.price ∨ a = b) l2 :=
    (List.Pairwise.and h2 hd2).imp (fun hab => Or.inl (lt_of_le_of_ne hab.1 hab.2))
  exact List.eq_of_perm_of_sorted hperm hs1 hs2

/-- In a price-sorted list, every element of the taken prefix is at most
every element of the dropped suffix. -/
theorem sorted_take_drop_le (S : List HourSlot) (hS : List.Sorted lePrice S) (n : Nat)
    (a b : HourSlot) (ha : a ∈ S.take n) (hb : b ∈ S.drop n) : a.price ≤ b.price := by
  have hsplit : List.Pairwise lePrice (S.take n ++ S.drop n) := by
    rw [List.take_append_drop]
    exact hS
  rw [List.pairwise_append] at hsplit
  exact hsplit.2.2 a ha b hb

/-- C7 amended: the cheapest-N selection returns at most N hours, sorted
ascending by hour start, and never selects an hour priced strictly above
an excluded hour of the same pool; and — provided all pool prices are
pairwise distinct, as tied prices are broken by input order by the stable
sort — the selection is invariant under reordering of the input pool. -/
theorem c7_cheapest_selection_amended (pool pool2 : List HourSlot) (n : Nat) :
    (selectCheapestHours pool n).length ≤ n ∧
    List.Sorted leStart (selectCheapestHours pool n) ∧
    (∀ a ∈ selectCheapestHours pool n, ∀ b ∈ pool,
      b ∉ selectCheapestHours pool n → a.price ≤ b.price) ∧
    (pool.Perm pool2 → pool.Pairwise (fun a b => a.price ≠ b.price) →
      selectCheapestHours pool n = selectCheapestHours pool2 n) := by
  by_cases hpool : pool.isEmpty
  · have hpnil : pool = [] := by
      cases pool with
      | nil => rfl
      | cons a t => simp at hpool
    subst hpnil
    refine ⟨by simp [selectCheapestHours], by simp [selectCheapestHours], by simp, ?_⟩
    intro hperm _
    rw [hperm.nil_eq]
  · have hsel : selectCheapestHours pool n =
        List.insertionSort leStart ((List.insertionSort lePrice pool).take n) := by
      rw [selectCheapestHours, if_neg hpool]
    refine ⟨?_, ?_, ?_, ?_⟩
    · rw [hsel, List.length_insertionSort, List.length_take]
      exact min_le_left _ _
    · rw [hsel]
      exact List.sorted_insertionSort leStart _
    · intro a ha b hbpool hbnot
      rw [hsel] at ha hbnot
      have ha' : a ∈ (List.insertionSort lePrice pool).take n :=
        (List.mem_insertionSort leStart).mp ha
      have hb1 : b ∈ List.insertionSort lePrice pool :=
        (List.mem_insertionSort lePrice).mpr hbpool
      have hb2 : b ∉ (List.insertionSort lePrice pool).take n := fun hmem =>
        hbnot ((List.mem_insertionSort leStart).mpr hmem)
      have hbdrop : b ∈ (List.insertionSort lePrice pool).drop n := by
        have hsplit : (List.insertionSort lePrice pool).take n ++
            (List.insertionSort lePrice pool).drop n = List.insertionSort lePrice pool :=
          List.take_append_drop n _
        have hb3 : b ∈ (List.insertionSort lePrice pool).take n ++
            (List.insertionSort lePrice pool).drop n := by
          rw [hsplit]
          exact hb1
        rcases List.mem_append.mp hb3 with hmem | hmem
        · exact absurd hmem hb2
        · exact hmem
      exact sorted_take_drop_le (List.insertionSort lePrice pool)
        (List.sorted_insertionSort lePrice pool) n a b ha' hbdrop
    · intro hperm hd
      have hpool2 : ¬ pool2.isEmpty = true := by
        intro hemp
        have : pool2 = [] := by
          cases pool2 with
          | nil => rfl
          | cons a t => simp at hemp
        rw [this] at hperm
        have : pool = [] := hperm.eq_nil
        rw [this] at hpool
        exact hpool rfl
      have hsel2 : selectCheapestHours pool2 n =
          List.insertionSort leStart ((List.insertionSort lePrice pool2).take n) := by
        rw [selectCheapestHours, if_neg hpool2]
      have hsorteq : List.insertionSort lePrice pool = List.insertionSort lePrice pool2 := by
        refine sorted_perm_distinct_eq ?_ (List.sorted_insertionSort lePrice pool)
          (List.sorted_insertionSort lePrice pool2) ?_
        · exact ((List.perm_insertionSort lePrice pool).trans hperm).trans
            (List.perm_insertionSort lePrice pool2).symm
        · exact (List.Perm.pairwise_iff (fun hxy => Ne.symm hxy)
            (List.perm_insertionSort lePrice pool).symm).mp hd
      rw [hsel, hsel2, hsorteq]

/-- C7 counterexample: with two equally priced hours, the stable sort
breaks the tie by input order, so reordering the pool changes which hour
the cheapest-1 selection returns — the selection is not invariant under
reordering of the input pool as claimed. -/
theorem c7_cheapest_selection_counterexample :
    c7cexPoolA.Perm c7cexPoolB ∧
    selectCheapestHours c7cexPoolA 1 ≠ selectCheapestHours c7cexPoolB 1 := by
  constructor
  · exact List.Perm.swap _ _ _
  · decide

/-- C7 witness: the amended theorem applied to a three-hour pool with
distinct prices and one of its reorderings. -/
theorem c7_cheapest_selection_witness :
    (selectCheapestHours c7witPool 2).length ≤ 2 ∧
    selectCheapestHours c7witPool 2 = selectCheapestHours c7witPool2 2 := by
  have h := c7_cheapest_selection_amended c7witPool c7witPool2 2
  exact ⟨h.1, h.2.2.2 (by decide) (by decide)⟩
